import Mathlib

/-!
Shallow embedding of the CID command core of go-ipfs: the `cid`
subcommand family (identifier version conversion, the batch formatter
`emitCids`, registry listings) and the importer invocation of
`urlstore add`.  Definitions are translated from the Go source; the
library collaborators that are not part of the source slice
(cid.Decode, cid.ExtractEncoding, cidutil.Format, mbase.EncoderByName)
are passed as parameters, and where a claim needs their concrete shape
they are modelled from the spec and marked as such.
-/

namespace CidSpec

/-- A multihash: hash-function tag plus digest bytes (go-multihash). -/
structure Multihash where
  code : Nat
  digest : List Nat
deriving DecidableEq, Repr

/-- A CID as the gx-era go-cid struct stores it: version, codec tag and
multihash. -/
structure Cid where
  version : Nat
  codec : Nat
  hash : Multihash
deriving DecidableEq, Repr

/-- cid.DagProtobuf, the one legacy codec V0 identifiers denote. -/
def DagProtobuf : Nat := 0x70

/-- go-cid NewCidV0: version 0, codec DagProtobuf, the given multihash. -/
def NewCidV0 (h : Multihash) : Cid := ⟨0, DagProtobuf, h⟩

/-- go-cid NewCidV1: version 1 with an explicit codec tag. -/
def NewCidV1 (codec : Nat) (h : Multihash) : Cid := ⟨1, codec, h⟩

/-- go-cid `(c Cid) Type()`: the codec tag. -/
def Cid.type (c : Cid) : Nat := c.codec

/-- `toCidV0` (cid.go): only DagProtobuf identifiers may become V0. -/
def toCidV0 (c : Cid) : Except String Cid :=
  if c.type ≠ DagProtobuf then .error "can't convert non-protobuf nodes to cidv0"
  else .ok (NewCidV0 c.hash)

/-- `toCidV1` (cid.go): always succeeds, keeping codec and multihash. -/
def toCidV1 (c : Cid) : Except String Cid := .ok (NewCidV1 c.type c.hash)

/-- Well-formedness the go-cid constructors maintain: a V0 identifier
always carries the DagProtobuf codec. -/
def Cid.WF (c : Cid) : Prop := c.version = 0 → c.codec = DagProtobuf

/-- C3: `toCidV0` succeeds exactly on DagProtobuf identifiers; on success
the result is version 0 with the digest untouched, otherwise it fails
with the unsupported-codec error. -/
theorem toCidV0_spec (c : Cid) :
    ((∃ r, toCidV0 c = Except.ok r) ↔ c.codec = DagProtobuf) ∧
    (c.codec = DagProtobuf →
      toCidV0 c = Except.ok ⟨0, DagProtobuf, c.hash⟩) ∧
    (c.codec ≠ DagProtobuf →
      toCidV0 c = Except.error "can't convert non-protobuf nodes to cidv0") := by
  refine ⟨⟨?_, ?_⟩, ?_, ?_⟩ <;> unfold toCidV0 Cid.type NewCidV0
  · rintro ⟨r, hr⟩
    by_contra h
    simp [h] at hr
  · intro h
    exact ⟨⟨0, DagProtobuf, c.hash⟩, by simp [h]⟩
  · intro h
    simp [h]
  · intro h
    simp [h]

/-- Witness for C3 at concrete identifiers. -/
theorem toCidV0_spec_witness :
    toCidV0 ⟨1, DagProtobuf, ⟨18, [1, 2]⟩⟩ =
      Except.ok ⟨0, DagProtobuf, ⟨18, [1, 2]⟩⟩ ∧
    toCidV0 ⟨1, 85, ⟨18, [1, 2]⟩⟩ =
      Except.error "can't convert non-protobuf nodes to cidv0" :=
  ⟨(toCidV0_spec ⟨1, DagProtobuf, ⟨18, [1, 2]⟩⟩).2.1 rfl,
   (toCidV0_spec ⟨1, 85, ⟨18, [1, 2]⟩⟩).2.2 (by decide)⟩

/-- C4: on legacy-codec identifiers the two version conversions are
mutually inverse on (codec, digest). -/
theorem version_roundtrip (c : Cid) (h : c.codec = DagProtobuf) :
    (toCidV1 c).bind toCidV0 = Except.ok ⟨0, c.codec, c.hash⟩ ∧
    (toCidV0 c).bind toCidV1 = Except.ok ⟨1, c.codec, c.hash⟩ := by
  unfold toCidV1 toCidV0 Cid.type NewCidV0 NewCidV1
  simp [Except.bind, h]

/-- Witness for C4 at a concrete legacy-codec identifier. -/
theorem version_roundtrip_witness :
    (toCidV1 ⟨0, DagProtobuf, ⟨18, [7]⟩⟩).bind toCidV0 =
      Except.ok ⟨0, DagProtobuf, ⟨18, [7]⟩⟩ ∧
    (toCidV0 ⟨0, DagProtobuf, ⟨18, [7]⟩⟩).bind toCidV1 =
      Except.ok ⟨1, DagProtobuf, ⟨18, [7]⟩⟩ :=
  version_roundtrip ⟨0, DagProtobuf, ⟨18, [7]⟩⟩ rfl

/-- C5: `toCidV1` never fails and yields version 1 with codec and digest
untouched; the no-op conversions V1→V1 and V0→V0 are identities. -/
theorem toCidV1_spec (c : Cid) :
    toCidV1 c = Except.ok ⟨1, c.codec, c.hash⟩ ∧
    (c.version = 1 → toCidV1 c = Except.ok c) ∧
    (c.WF → c.version = 0 → toCidV0 c = Except.ok c) := by
  obtain ⟨v, k, h⟩ := c
  refine ⟨rfl, ?_, ?_⟩
  · rintro rfl
    rfl
  · intro hwf h0
    have hk : k = DagProtobuf := hwf h0
    subst hk h0
    rfl

/-- Witness for C5 at concrete identifiers. -/
theorem toCidV1_spec_witness :
    toCidV1 ⟨1, 85, ⟨18, [3]⟩⟩ = Except.ok ⟨1, 85, ⟨18, [3]⟩⟩ ∧
    toCidV0 ⟨0, DagProtobuf, ⟨18, [3]⟩⟩ =
      Except.ok ⟨0, DagProtobuf, ⟨18, [3]⟩⟩ :=
  ⟨(toCidV1_spec ⟨1, 85, ⟨18, [3]⟩⟩).2.1 rfl,
   (toCidV1_spec ⟨0, DagProtobuf, ⟨18, [3]⟩⟩).2.2 (fun _ => rfl) rfl⟩

/-- Per-item result record (CidFormatRes in cid.go). -/
structure CidFormatRes where
  cidStr : String
  formatted : String
  errorMsg : String
deriving DecidableEq, Repr

/-- Errors from cidutil.Format: the structural FormatStringError, which
aborts the batch, versus any other (per-item) rendering error. -/
inductive FormatError where
  | formatString (msg : String)
  | other (msg : String)
deriving DecidableEq, Repr

/-- The error text of a rendering error. -/
def FormatError.message : FormatError → String
  | .formatString m => m
  | .other m => m

/-- cidFormatOpts (cid.go), with the nilable Go function pointer
`verConv` modelled as an Option. -/
structure CidFormatOpts where
  fmtStr : String
  newBase : Int
  verConv : Option (Cid → Except String Cid)

/-- The base used for one item (cid.go lines 143-146): the requested base,
or, when it is the sentinel -1, the base extracted from the input text;
an extraction error is discarded and the library's -1 is kept. -/
def itemBase (ext : String → Except String Int) (newBase : Int)
    (s : String) : Int :=
  if newBase = -1 then
    match ext s with
    | .ok b => b
    | .error _ => -1
  else newBase

/-- The optional version-conversion step (cid.go lines 147-153). -/
def convStep : Option (Cid → Except String Cid) → Cid → Except String Cid
  | none, c => .ok c
  | some f, c => f c

/-- `emitCids` (cid.go lines 129-162), with the library collaborators
cid.Decode, cid.ExtractEncoding and cidutil.Format as parameters.
Returns the per-item records emitted, in order, paired with the
batch-fatal format-string error when one cut the loop short. -/
def emitCids (dec : String → Except String Cid)
    (ext : String → Except String Int)
    (fmt : String → Int → Cid → String × Option FormatError)
    (opts : CidFormatOpts) :
    List String → List CidFormatRes × Option FormatError
  | [] => ([], none)
  | cidStr :: rest =>
    match dec cidStr with
    | .error e =>
      let r := emitCids dec ext fmt opts rest
      (⟨cidStr, "", e⟩ :: r.1, r.2)
    | .ok c =>
      let base := itemBase ext opts.newBase cidStr
      match convStep opts.verConv c with
      | .error e =>
        let r := emitCids dec ext fmt opts rest
        (⟨cidStr, "", e⟩ :: r.1, r.2)
      | .ok c1 =>
        match fmt opts.fmtStr base c1 with
        | (str, oe) =>
          match oe with
          | some (.formatString m) => ([], some (.formatString m))
          | some (.other e) =>
            let r := emitCids dec ext fmt opts rest
            (⟨cidStr, str, e⟩ :: r.1, r.2)
          | none =>
            let r := emitCids dec ext fmt opts rest
            (⟨cidStr, str, ""⟩ :: r.1, r.2)

/-- Does an item fail before reaching the render step (decode failure or
version-conversion failure)? -/
def earlyFail (dec : String → Except String Cid)
    (conv : Option (Cid → Except String Cid)) (s : String) : Bool :=
  match dec s with
  | .error _ => true
  | .ok c =>
    match convStep conv c with
    | .error _ => true
    | .ok _ => false

/-- The per-item record such a failing item gets: the input, an empty
rendered text, and the error message. -/
def earlyRes (dec : String → Except String Cid)
    (conv : Option (Cid → Except String Cid)) (s : String) : CidFormatRes :=
  match dec s with
  | .error e => ⟨s, "", e⟩
  | .ok c =>
    match convStep conv c with
    | .error e => ⟨s, "", e⟩
    | .ok _ => ⟨s, "", ""⟩

/-- The whole per-item pipeline of one input string: decode, optional
version conversion, render. -/
def processOne (dec : String → Except String Cid)
    (ext : String → Except String Int)
    (fmt : String → Int → Cid → String × Option FormatError)
    (opts : CidFormatOpts) (s : String) : CidFormatRes :=
  match dec s with
  | .error e => ⟨s, "", e⟩
  | .ok c =>
    match convStep opts.verConv c with
    | .error e => ⟨s, "", e⟩
    | .ok c1 =>
      match fmt opts.fmtStr (itemBase ext opts.newBase s) c1 with
      | (str, oe) =>
        match oe with
        | some fe => ⟨s, str, fe.message⟩
        | none => ⟨s, str, ""⟩

/-- Modelled from the spec: structural validity of a format template
(spec 4.3) — cidutil.Format's parser is not part of the source slice.
`dirOk` abstracts which directive characters the engine knows; a `%`
must be followed by a directive character or by `%`, and a trailing
unmatched `%` is a BadFormatString. -/
def fmtStrOk (dirOk : Char → Bool) : List Char → Bool
  | [] => true
  | ['%'] => false
  | '%' :: c :: rest => (c == '%' || dirOk c) && fmtStrOk dirOk rest
  | _ :: rest => fmtStrOk dirOk rest

/-- Modelled from the spec: a format engine raising the structural
BadFormatString exactly on structurally invalid templates (spec 4.3),
with the rendering of valid templates abstracted by `render`. -/
def specFormat (dirOk : Char → Bool) (render : String → Int → Cid → String)
    (tmpl : String) (base : Int) (c : Cid) : String × Option FormatError :=
  if fmtStrOk dirOk tmpl.toList then (render tmpl base c, none)
  else ("", some (.formatString "premature end of format string"))

/-- When the format engine never raises its structural error on this
template, `emitCids` is exactly a map of the per-item pipeline. -/
theorem emitCids_eq_map (dec : String → Except String Cid)
    (ext : String → Except String Int)
    (fmt : String → Int → Cid → String × Option FormatError)
    (opts : CidFormatOpts)
    (hfmt : ∀ b c m, (fmt opts.fmtStr b c).2 ≠ some (.formatString m)) :
    ∀ args, emitCids dec ext fmt opts args =
      (args.map (processOne dec ext fmt opts), none) := by
  intro args
  induction args with
  | nil => rfl
  | cons s rest ih =>
    simp only [emitCids, processOne, List.map_cons]
    cases hds : dec s with
    | error e => simp [ih]
    | ok c =>
      cases hcv : convStep opts.verConv c with
      | error e => simp [hcv, ih]
      | ok c1 =>
        cases hf : fmt opts.fmtStr (itemBase ext opts.newBase s) c1 with
        | mk str oe =>
          cases oe with
          | none => simp [hcv, hf, ih]
          | some fe =>
            cases fe with
            | other e => simp [hcv, hf, ih, FormatError.message]
            | formatString m =>
              exact absurd (congrArg Prod.snd hf) (hfmt _ _ m)

/-- C2: with a template the engine never raises its structural error on,
the batch yields exactly one record per input, in input order, each the
pipeline of its own input alone; decode and version-conversion failures
are recorded as (input, "", error) on their own item only. -/
theorem emitCids_per_item_isolation (dec : String → Except String Cid)
    (ext : String → Except String Int)
    (fmt : String → Int → Cid → String × Option FormatError)
    (opts : CidFormatOpts)
    (hfmt : ∀ b c m, (fmt opts.fmtStr b c).2 ≠ some (.formatString m))
    (args : List String) :
    emitCids dec ext fmt opts args =
      (args.map (processOne dec ext fmt opts), none) ∧
    ∀ s, earlyFail dec opts.verConv s = true →
      processOne dec ext fmt opts s = earlyRes dec opts.verConv s ∧
      (earlyRes dec opts.verConv s).cidStr = s ∧
      (earlyRes dec opts.verConv s).formatted = "" := by
  refine ⟨emitCids_eq_map dec ext fmt opts hfmt args, ?_⟩
  intro s hs
  unfold processOne earlyRes
  cases hds : dec s with
  | error e => simp
  | ok c =>
    cases hcv : convStep opts.verConv c with
    | error e => simp [hcv]
    | ok c1 =>
      exfalso
      simp [earlyFail, hds, hcv] at hs

/-- Witness for C2: a concrete two-item batch whose second item fails to
decode; both records appear, in order. -/
theorem emitCids_per_item_isolation_witness :
    emitCids
        (fun s => if s == "zb" then Except.ok ⟨1, 85, ⟨18, [1]⟩⟩
          else Except.error "bad cid")
        (fun _ => Except.ok 0) (fun t _ _ => (t, none))
        ⟨"%s", 0, none⟩ ["zb", "x"]
      = ([⟨"zb", "%s", ""⟩, ⟨"x", "", "bad cid"⟩], none) := by
  have h := (emitCids_per_item_isolation
      (fun s => if s == "zb" then Except.ok ⟨1, 85, ⟨18, [1]⟩⟩
        else Except.error "bad cid")
      (fun _ => Except.ok 0) (fun t _ _ => (t, none)) ⟨"%s", 0, none⟩
      (by intro b c m; simp) ["zb", "x"]).1
  rw [h]
  rfl

/-- C1 (amended): a structural format-string error aborts the batch at
the first item that reaches the render step; the records emitted are
exactly those of the leading run of items failing decode or version
conversion, and the fatal error is reported iff some item reached
rendering — in particular an empty batch reports no error. -/
theorem emitCids_fatal_aborts_at_first_render (dec : String → Except String Cid)
    (ext : String → Except String Int)
    (fmt : String → Int → Cid → String × Option FormatError)
    (opts : CidFormatOpts) (m : String)
    (hfmt : ∀ b c, (fmt opts.fmtStr b c).2 = some (.formatString m)) :
    ∀ args, emitCids dec ext fmt opts args =
      ((args.takeWhile (earlyFail dec opts.verConv)).map
          (earlyRes dec opts.verConv),
        if args.all (earlyFail dec opts.verConv) then none
        else some (.formatString m)) := by
  intro args
  induction args with
  | nil => rfl
  | cons s rest ih =>
    simp only [emitCids]
    cases hds : dec s with
    | error e =>
      have hef : earlyFail dec opts.verConv s = true := by
        simp [earlyFail, hds]
      have her : earlyRes dec opts.verConv s = ⟨s, "", e⟩ := by
        simp [earlyRes, hds]
      simp [List.takeWhile_cons, List.all_cons, hef, her, ih]
    | ok c =>
      cases hcv : convStep opts.verConv c with
      | error e =>
        have hef : earlyFail dec opts.verConv s = true := by
          simp [earlyFail, hds, hcv]
        have her : earlyRes dec opts.verConv s = ⟨s, "", e⟩ := by
          simp [earlyRes, hds, hcv]
        simp [hcv, List.takeWhile_cons, List.all_cons, hef, her, ih]
      | ok c1 =>
        have hef : earlyFail dec opts.verConv s = false := by
          simp [earlyFail, hds, hcv]
        simp [hcv, hfmt, List.takeWhile_cons, List.all_cons, hef]

/-- Witness for the amended C1 at a concrete batch: the decode-failing
first item is still emitted, then the batch aborts at the first item
that reaches rendering. -/
theorem emitCids_fatal_aborts_witness :
    emitCids
        (fun s => if s == "zb" then Except.ok ⟨1, DagProtobuf, ⟨18, [1]⟩⟩
          else Except.error "bad cid")
        (fun _ => Except.ok 0) (specFormat (fun _ => false) (fun t _ _ => t))
        ⟨"abc%", 0, none⟩ ["x", "zb", "y"]
      = ([⟨"x", "", "bad cid"⟩],
          some (.formatString "premature end of format string")) := by
  have hbad : fmtStrOk (fun _ => false) "abc%".toList = false := by decide
  have h := emitCids_fatal_aborts_at_first_render
      (fun s => if s == "zb" then Except.ok ⟨1, DagProtobuf, ⟨18, [1]⟩⟩
        else Except.error "bad cid")
      (fun _ => Except.ok 0) (specFormat (fun _ => false) (fun t _ _ => t))
      ⟨"abc%", 0, none⟩ "premature end of format string"
      (by
        intro b c
        have hbad2 : fmtStrOk (fun _ => false) ['a', 'b', 'c', '%'] = false := by
          decide
        simp [specFormat, hbad2]) ["x", "zb", "y"]
  rw [h]
  rfl

/-- C1 counterexample: the template "abc%" is structurally invalid (it
ends in an unmatched %), yet on the empty input sequence the batch call
returns success with no error, instead of failing with BadFormatString;
the same engine does raise the structural error whenever rendering is
reached. -/
theorem badfmt_empty_batch_no_error :
    fmtStrOk (fun _ => false) "abc%".toList = false ∧
    (specFormat (fun _ => false) (fun t _ _ => t) "abc%" 0
        ⟨0, DagProtobuf, ⟨18, []⟩⟩).2
      = some (.formatString "premature end of format string") ∧
    emitCids (fun s => Except.error s) (fun _ => Except.error "")
        (specFormat (fun _ => false) (fun t _ _ => t)) ⟨"abc%", -1, none⟩ []
      = ([], none) :=
  ⟨by decide, by decide, rfl⟩

/-- Auxiliary for strings.IndexByte: position of the first occurrence of
`c` in a character list. -/
def indexByteAux (c : Char) : List Char → Option Nat
  | [] => none
  | x :: xs => if x == c then some 0 else (indexByteAux c xs).map (· + 1)

/-- strings.IndexByte as cidFmtCmd.Run uses it: index of the first
occurrence of `c` in `s`, or -1 when there is none. -/
def indexByte (s : String) (c : Char) : Int :=
  match indexByteAux c s.toList with
  | some i => (i : Int)
  | none => -1

/-- `indexByteAux` finds nothing exactly on lists not containing `c`. -/
theorem indexByteAux_eq_none (c : Char) :
    ∀ l : List Char, indexByteAux c l = none ↔ c ∉ l := by
  intro l
  induction l with
  | nil => simp [indexByteAux]
  | cons x xs ih =>
    simp only [indexByteAux]
    by_cases hx : x == c
    · have hxc : x = c := by simpa using hx
      simp [hx, hxc]
    · have hxc : ¬ c = x := fun he => (by simpa using hx : ¬ x = c) he.symm
      simp [hx, Option.map_eq_none', ih, hxc]

/-- `indexByte` returns -1 exactly when the character is absent. -/
theorem indexByte_eq_neg_one (s : String) (c : Char) :
    indexByte s c = -1 ↔ c ∉ s.toList := by
  unfold indexByte
  cases h : indexByteAux c s.toList with
  | none => simpa using (indexByteAux_eq_none c s.toList).mp h
  | some i =>
    have hmem : c ∈ s.toList := by
      by_contra hn
      rw [(indexByteAux_eq_none c s.toList).mpr hn] at h
      simp at h
    constructor
    · intro hi
      exfalso
      have h2 : (i : Int) = -1 := hi
      omega
    · intro hn
      exact absurd hmem hn

/-- The verStr switch of cidFmtCmd.Run. -/
def parseVerConv : String → Except String (Option (Cid → Except String Cid))
  | "" => .ok none
  | "0" => .ok (some toCidV0)
  | "1" => .ok (some toCidV1)
  | v => .error ("invalid cid version: " ++ v ++ "\n")

/-- The baseStr handling of cidFmtCmd.Run, with mbase.EncoderByName as a
collaborator; "" selects the keep-original sentinel -1. -/
def parseBase (encoderByName : String → Except String Int) :
    String → Except String Int
  | "" => .ok (-1)
  | b => encoderByName b

/-- cidFmtCmd.Run: validates the template and the option strings, then
hands off to emitCids; the pair holds the emitted records and the error
the Run function returns (none on success). -/
def cidFmtRun (dec : String → Except String Cid)
    (ext : String → Except String Int)
    (fmt : String → Int → Cid → String × Option FormatError)
    (encoderByName : String → Except String Int)
    (fmtStr verStr baseStr : String) (args : List String) :
    List CidFormatRes × Option String :=
  if indexByte fmtStr '%' = -1 then
    ([], some ("invalid format string: " ++ fmtStr))
  else
    match parseVerConv verStr with
    | .error e => ([], some e)
    | .ok conv =>
      match parseBase encoderByName baseStr with
      | .error e => ([], some e)
      | .ok nb =>
        match emitCids dec ext fmt ⟨fmtStr, nb, conv⟩ args with
        | (res, oe) => (res, oe.map FormatError.message)

/-- C9: the format entry point rejects a template upfront — with the
invalid-format-string error and no per-item record, whatever the inputs
— exactly when the template contains no % byte; a template containing a
% always passes this guard. -/
theorem cidFmtRun_percent_guard (fmtStr : String) :
    (indexByte fmtStr '%' = -1 ↔ '%' ∉ fmtStr.toList) ∧
    ('%' ∉ fmtStr.toList → ∀ dec ext fmt enc verStr baseStr args,
      cidFmtRun dec ext fmt enc fmtStr verStr baseStr args
        = ([], some ("invalid format string: " ++ fmtStr))) ∧
    ('%' ∈ fmtStr.toList → indexByte fmtStr '%' ≠ -1) := by
  refine ⟨indexByte_eq_neg_one fmtStr '%', ?_, ?_⟩
  · intro h dec ext fmt enc verStr baseStr args
    unfold cidFmtRun
    rw [if_pos ((indexByte_eq_neg_one fmtStr '%').mpr h)]
  · intro h heq
    exact ((indexByte_eq_neg_one fmtStr '%').mp heq) h

/-- Witness for C9: the literal template "abc" is rejected upfront for a
nonempty batch; "%s" passes the guard. -/
theorem cidFmtRun_percent_guard_witness :
    cidFmtRun (fun s => Except.error s) (fun _ => Except.error "")
        (fun t _ _ => (t, none)) (fun _ => Except.error "unknown base")
        "abc" "" "" ["q"]
      = ([], some ("invalid format string: " ++ "abc")) ∧
    indexByte "%s" '%' ≠ -1 :=
  ⟨(cidFmtRun_percent_guard "abc").2.1 (by decide)
      (fun s => Except.error s) (fun _ => Except.error "")
      (fun t _ _ => (t, none)) (fun _ => Except.error "unknown base")
      "" "" ["q"],
   (cidFmtRun_percent_guard "%s").2.2 (by decide)⟩

/-- Modelled from the spec: the legacy V0 textual shape (spec section 6
wire format) — a length-46 string led by "Qm", as go-cid recognizes it. -/
def isV0Shape (s : String) : Bool :=
  s.length == 46 && s.toList.take 2 == ['Q', 'm']

/-- The go-multibase Base58BTC marker code, the character z. -/
def Base58BTC : Int := 122

/-- Modelled from the spec: multibase decoding (spec 4.1) — the
go-multibase collaborator is not part of the source slice.  The leading
base marker is validated against the registry (`validMarker`), then the
remaining characters are decoded by the base's decoder (`baseDec`). -/
def mbaseDecode (validMarker : Char → Bool)
    (baseDec : Char → String → Except String (List Nat)) (s : String) :
    Except String (List Nat) :=
  match s.toList with
  | [] => .error "cannot decode multibase for empty string"
  | m :: _ =>
    if validMarker m then baseDec m (s.drop 1)
    else .error "unsupported multibase"

/-- Modelled from the spec: cid.Decode (spec 4.1) — go-cid is not part of
the source slice.  Too-short texts fail; the legacy V0 shape is parsed
as a base58 multihash (`b58mh`); anything else is multibase-decoded and
the bytes parsed into an identifier (`castBytes`). -/
def specDecode (validMarker : Char → Bool)
    (baseDec : Char → String → Except String (List Nat))
    (b58mh : String → Except String Multihash)
    (castBytes : List Nat → Except String Cid) (s : String) :
    Except String Cid :=
  if s.length < 2 then .error "cid too short"
  else if isV0Shape s then (b58mh s).map NewCidV0
  else (mbaseDecode validMarker baseDec s).bind castBytes

/-- Modelled from the spec: cid.ExtractEncoding (spec 4.1) — the base a
textual identifier uses: the fixed legacy base for the V0 shape,
otherwise the leading marker when it is registered. -/
def specExtractEncoding (validMarker : Char → Bool) (s : String) :
    Except String Int :=
  if s.length < 2 then .error "cid too short"
  else if isV0Shape s then .ok Base58BTC
  else
    match s.toList with
    | [] => .error "cid too short"
    | m :: _ =>
      if validMarker m then .ok (m.toNat : Int)
      else .error "unsupported multibase"

/-- C10: for any input text the decoder has accepted, re-deriving the
base cannot fail — the discarded-error branch of `itemBase` under the
keep-original sentinel is unreachable, and the base used is exactly the
extracted one. -/
theorem decode_ok_extract_ok (validMarker : Char → Bool)
    (baseDec : Char → String → Except String (List Nat))
    (b58mh : String → Except String Multihash)
    (castBytes : List Nat → Except String Cid) (s : String) (c : Cid)
    (h : specDecode validMarker baseDec b58mh castBytes s = Except.ok c) :
    ∃ b, specExtractEncoding validMarker s = Except.ok b ∧
      itemBase (specExtractEncoding validMarker) (-1) s = b := by
  unfold specDecode at h
  by_cases hlen : s.length < 2
  · rw [if_pos hlen] at h
    simp at h
  · rw [if_neg hlen] at h
    by_cases hv0 : isV0Shape s = true
    · rw [if_pos hv0] at h
      refine ⟨Base58BTC, ?_, ?_⟩
      · simp [specExtractEncoding, hlen, hv0]
      · simp [itemBase, specExtractEncoding, hlen, hv0]
    · rw [if_neg hv0] at h
      cases hm : mbaseDecode validMarker baseDec s with
      | error e => rw [hm] at h; simp [Except.bind] at h
      | ok data =>
        unfold mbaseDecode at hm
        cases hl : s.toList with
        | nil => rw [hl] at hm; simp at hm
        | cons mch rest =>
          rw [hl] at hm
          have hl2 : s.data = mch :: rest := hl
          by_cases hvm : validMarker mch = true
          · refine ⟨(mch.toNat : Int), ?_, ?_⟩
            · simp [specExtractEncoding, hlen, hv0, hl2, hvm]
            · simp [itemBase, specExtractEncoding, hlen, hv0, hl2, hvm]
          · simp [hvm] at hm

/-- Witness for C10 at a concrete accepted input. -/
theorem decode_ok_extract_ok_witness :
    specDecode (fun m => m == 'z') (fun _ _ => Except.ok [1])
        (fun _ => Except.ok ⟨18, [1]⟩) (fun _ => Except.ok ⟨1, 85, ⟨18, [1]⟩⟩)
        "zb" = Except.ok ⟨1, 85, ⟨18, [1]⟩⟩ ∧
    ∃ b, specExtractEncoding (fun m => m == 'z') "zb" = Except.ok b ∧
      itemBase (specExtractEncoding (fun m => m == 'z')) (-1) "zb" = b :=
  ⟨rfl,
   decode_ok_extract_ok (fun m => m == 'z') (fun _ _ => Except.ok [1])
     (fun _ => Except.ok ⟨18, [1]⟩) (fun _ => Except.ok ⟨1, 85, ⟨18, [1]⟩⟩)
     "zb" ⟨1, 85, ⟨18, [1]⟩⟩ rfl⟩

/-- CodeAndName (cid.go): one registry entry for display. -/
structure CodeAndName where
  code : Int
  name : String
deriving DecidableEq, Repr

/-- unicode.ToLower on the ASCII range, where the multibase markers
live: an uppercase letter code gains 32, anything else is unchanged. -/
def toLowerCode (c : Int) : Int := if 65 ≤ c ∧ c ≤ 90 then c + 32 else c

/-- multibaseSorter.Less (cid.go): case-folded markers compared first;
on a tie the larger code — the lowercase letter — comes first. -/
def multibaseLess (x y : CodeAndName) : Bool :=
  if toLowerCode x.code ≠ toLowerCode y.code then
    decide (toLowerCode x.code < toLowerCode y.code)
  else decide (x.code > y.code)

/-- The precedence sort.Sort establishes with a Less comparator: x may
come before y when Less y x is false. -/
def mbLE (x y : CodeAndName) : Prop := multibaseLess y x = false

instance : DecidableRel mbLE :=
  fun x y => inferInstanceAs (Decidable (multibaseLess y x = false))

/-- The ordering the spec describes: case-insensitive on the marker, and
on a case-tie the lowercase variant (the larger ASCII code) first. -/
def specMbOrder (x y : CodeAndName) : Prop :=
  toLowerCode x.code < toLowerCode y.code ∨
    (toLowerCode x.code = toLowerCode y.code ∧ y.code ≤ x.code)

/-- The sorter's precedence coincides with the spec's ordering. -/
theorem mbLE_iff (x y : CodeAndName) : mbLE x y ↔ specMbOrder x y := by
  unfold mbLE multibaseLess specMbOrder
  by_cases h : toLowerCode y.code ≠ toLowerCode x.code
  · rw [if_pos h]
    simp only [decide_eq_false_iff_not, not_lt]
    omega
  · rw [if_neg h]
    simp only [decide_eq_false_iff_not, not_lt]
    omega

instance : IsTotal CodeAndName mbLE where
  total := by
    intro a b
    rw [mbLE_iff, mbLE_iff]
    unfold specMbOrder
    omega

instance : IsTrans CodeAndName mbLE where
  trans := by
    intro a b c hab hbc
    rw [mbLE_iff] at hab hbc ⊢
    unfold specMbOrder at hab hbc ⊢
    omega

/-- The multibase listing (basesCmd text encoder): sort.Sort with
multibaseSorter over the registry entries. -/
def multibaseListing (table : List CodeAndName) : List CodeAndName :=
  List.insertionSort mbLE table

/-- C6: every multibase listing is sorted case-insensitively by marker
with lowercase first on a case-tie, it is a permutation of its registry
table, and on the markers B, b, F, f the output order is b, B, f, F. -/
theorem multibase_listing_sorted :
    (∀ table : List CodeAndName,
      (multibaseListing table).Sorted specMbOrder ∧
      (multibaseListing table).Perm table) ∧
    multibaseListing [⟨66, "B"⟩, ⟨98, "b"⟩, ⟨70, "F"⟩, ⟨102, "f"⟩]
      = [⟨98, "b"⟩, ⟨66, "B"⟩, ⟨102, "f"⟩, ⟨70, "F"⟩] := by
  refine ⟨fun table => ⟨?_, ?_⟩, ?_⟩
  · exact (List.sorted_insertionSort mbLE table).imp
      (fun hab => (mbLE_iff _ _).mp hab)
  · exact List.perm_insertionSort mbLE table
  · decide

/-- The hash-function listing (hashesCmd.Run): the multihash registry
with the entries the verifcid acceptability predicate rejects skipped. -/
def hashesList (table : List (Int × String)) (isGoodHash : Int → Bool) :
    List CodeAndName :=
  (table.filter fun p => isGoodHash p.1).map fun p => ⟨p.1, p.2⟩

/-- C7: for any registry table and acceptability predicate, the listing
holds no entry failing the predicate, and every entry passing it. -/
theorem hashesList_filter (table : List (Int × String))
    (isGoodHash : Int → Bool) :
    (∀ e ∈ hashesList table isGoodHash, isGoodHash e.code = true) ∧
    (∀ p ∈ table, isGoodHash p.1 = true →
      (⟨p.1, p.2⟩ : CodeAndName) ∈ hashesList table isGoodHash) := by
  constructor
  · intro e he
    rcases List.mem_map.mp he with ⟨p, hp, rfl⟩
    exact (List.mem_filter.mp hp).2
  · intro p hp hg
    exact List.mem_map.mpr ⟨p, List.mem_filter.mpr ⟨hp, hg⟩, rfl⟩

/-- Witness for C7 on a concrete two-entry registry. -/
theorem hashesList_filter_witness :
    (⟨18, "sha2-256"⟩ : CodeAndName)
        ∈ hashesList [(18, "sha2-256"), (0, "identity")]
            (fun c => decide (c = 18)) ∧
    decide ((⟨18, "sha2-256"⟩ : CodeAndName).code = 18) = true :=
  ⟨(hashesList_filter [(18, "sha2-256"), (0, "identity")]
        (fun c => decide (c = 18))).2 (18, "sha2-256") (by simp) (by decide),
   (hashesList_filter [(18, "sha2-256"), (0, "identity")]
        (fun c => decide (c = 18))).1 ⟨18, "sha2-256"⟩ (by decide)⟩

/-- The two importer layout strategies (balanced.Layout and
trickle.Layout of go-unixfs). -/
inductive LayoutStrategy where
  | balanced
  | trickle
deriving DecidableEq, Repr

/-- mh.SHA2_256. -/
def SHA2_256 : Nat := 0x12

/-- The DagBuilderParams fields urlAdd fixes (urlstore.go); collaborator
handles (DAG service, chunker, URL) are out of scope, and the library
constant DefaultLinksPerBlock stays a parameter. -/
structure DagBuilderParams where
  rawLeaves : Bool
  maxlinks : Nat
  noCopy : Bool
  cidVersion : Nat
  cidCodec : Nat
  mhType : Nat
deriving DecidableEq, Repr

/-- The fixed parameter block urlAdd builds: raw leaves, no-copy, and a
V1 DagProtobuf SHA2-256 identifier for the result. -/
def urlAddParams (defaultLinksPerBlock : Nat) : DagBuilderParams :=
  ⟨true, defaultLinksPerBlock, true, 1, DagProtobuf, SHA2_256⟩

/-- The importer invocation of urlAdd.Run (urlstore.go): the layout is
trickle exactly when the trickle option is set, balanced otherwise, and
nothing else depends on the option. -/
def urlAddImporterCall (defaultLinksPerBlock : Nat) (useTrickledag : Bool) :
    LayoutStrategy × DagBuilderParams :=
  ((if useTrickledag then .trickle else .balanced),
    urlAddParams defaultLinksPerBlock)

/-- C8: the trickle flag selects the deep/sequential strategy exactly
when set and the broad/shallow one otherwise, and the rest of the
importer parameter block does not depend on the flag. -/
theorem urlAdd_layout_selection (defaultLinksPerBlock : Nat) (t : Bool) :
    ((urlAddImporterCall defaultLinksPerBlock t).1
        = LayoutStrategy.trickle ↔ t = true) ∧
    ((urlAddImporterCall defaultLinksPerBlock t).1
        = LayoutStrategy.balanced ↔ t = false) ∧
    (urlAddImporterCall defaultLinksPerBlock t).2
      = urlAddParams defaultLinksPerBlock := by
  cases t <;> simp [urlAddImporterCall]

end CidSpec
